import Mathlib

/-!
Shallow embedding of the k8s-release-manager core: the state-record manager
(package `state`), the transfer pipeline (package `transfer`), and the
release-manager import pipeline (package `importt`), together with theorems
settling the specification claims about them.

Machine integers (the release revision counter) are modelled as `Nat`;
backend bytes are abstracted to the decoded values they carry; the
goroutine fan-out of the deploy loops is collapsed to its sequential
semantics, which is sound there because each dispatched worker touches no
shared accumulator and the loop joins every worker before returning, so
the observable per-release effects are exactly the concatenation of the
per-iteration effects. The one fan-out that does share mutable state — the
release store's unsynchronised append to the shared result slice — is
modelled explicitly as an interleaving of shared-memory reads and writes.
-/

/-- The release manager state record (`state.Info`): the marker identifying
which release currently owns a storage path. `ReleaseVersion` is `int32` in
the source, always a non-negative revision counter, modelled as `Nat`. -/
structure Info where
  ReleaseFilename : String
  ReleaseName : String
  ReleaseVersion : Nat
deriving DecidableEq

/-- A deployed Helm release (`rls.Release`), restricted to the fields the
core reads: name, namespace, revision, and the key/value configuration map.
The raw YAML values blob is modelled as the parsed association list; `none`
models a blob that fails to parse. -/
structure Release where
  Name : String
  Namespace : String
  Version : Nat
  Config : Option (List (String × String))
deriving DecidableEq

/-- Modelled from the spec: the release-file naming convention is a suffix
match against the release extension (`constants.ReleaseExtension`, whose
defining package is not in `src/`). -/
def ReleaseExtension : String := ".release"

/-- Modelled from the spec: the State Record lives at a fixed well-known
file name (`constants.ManagerStateFilename`, whose defining package is not
in `src/`); it does not match the release-file naming convention. -/
def ManagerStateFilename : String := "rlsmgr.state"

/-- Modelled from the spec: the designated storage-path configuration key
(`constants.ValueStoragePath`, whose defining package is not in `src/`). -/
def ValueStoragePath : String := "backend.path"

/-- Modelled from the spec: `release.Filename` (package `release`, not in
`src/`) derives the stored file name deterministically from the release's
name and version. -/
def Filename (r : Release) : String :=
  r.Name ++ "-" ++ toString r.Version ++ ReleaseExtension

/-- Set a key in an association list, replacing the first binding of that
key if present, appending otherwise. -/
def setValue : List (String × String) → String → String → List (String × String)
  | [], k, v => [(k, v)]
  | kv :: rest, k, v =>
    if kv.1 = k then (k, v) :: rest else kv :: setValue rest k v

/-- Look a key up in an association list (first binding wins). -/
def getValue : List (String × String) → String → Option String
  | [], _ => none
  | kv :: rest, k => if kv.1 = k then some kv.2 else getValue rest k

/-- The value stored under key `k` of a release's configuration map, when
the map parses and the key is bound. -/
def Release.valueOf (r : Release) (k : String) : Option String :=
  r.Config.bind (fun m => getValue m k)

/-- Modelled from the spec: `release.UpdateValue` (package `release`, not in
`src/`) rewrites the given key in the release's configuration map and yields
the release carrying the updated map; it fails when the release's raw
configuration cannot be parsed, modelled as the map being absent. The
pipeline applies it through the release pointer, so the batch observes the
rewrite. -/
def UpdateValue (r : Release) (key val : String) : Except String Release :=
  match r.Config with
  | none => Except.error ("cannot parse values for release " ++ r.Name)
  | some m => Except.ok { r with Config := some (setValue m key val) }

/-- Backend operations performed by the state-record manager against its
canonical state path, recorded as an effect trace. -/
inductive BackendOp where
  | readRecord
  | writeRecord (i : Info)
  | deleteRecord
deriving DecidableEq

/-- The writes occurring in a backend-operation trace. -/
def writes (ops : List BackendOp) : List Info :=
  ops.filterMap (fun op =>
    match op with
    | BackendOp.writeRecord i => some i
    | _ => none)

/-- The release manager state (`state.State`): `init` is the private
first-update latch; `ReleaseName` is `s.Config.Export.ReleaseName`;
`stored` is the record currently at the canonical state path (`none` means
reading it fails with not-found). -/
structure State where
  init : Bool
  ReleaseName : String
  stored : Option Info
deriving DecidableEq

/-- `state.State.updateState`: on the first update of a run, write without
reading; afterwards read the stored record back, treat a read failure as
stale, and write only when the candidate differs from it by deep equality. -/
def State.updateState (s : State) (i : Info) : State × List BackendOp :=
  if s.init then
    match s.stored with
    | none =>
      ({ s with stored := some i }, [BackendOp.readRecord, BackendOp.writeRecord i])
    | some oldInfo =>
      if i = oldInfo then
        (s, [BackendOp.readRecord])
      else
        ({ s with stored := some i }, [BackendOp.readRecord, BackendOp.writeRecord i])
  else
    ({ s with init := true, stored := some i }, [BackendOp.writeRecord i])

/-- `state.State.delete`: unconditionally delete the record at the
canonical state path. -/
def State.delete (s : State) : State × List BackendOp :=
  ({ s with stored := none }, [BackendOp.deleteRecord])

/-- `state.State.isManagerRelease`: the name was explicitly configured and
matches. -/
def State.isManagerRelease (s : State) (name : String) : Bool :=
  s.ReleaseName != "" && name == s.ReleaseName

/-- `state.State.Update`: without a configured release name, ignore state;
otherwise write a record built from the first release named like the
manager, or delete the remote record when none is. -/
def State.Update (s : State) (releases : List Release) : State × List BackendOp :=
  if s.ReleaseName = "" then
    (s, [])
  else
    match releases.find? (fun r => s.isManagerRelease r.Name) with
    | some r => s.updateState (Info.mk (Filename r) s.ReleaseName r.Version)
    | none => s.delete

/-- The release-manager import configuration (`config.ImportConfig`),
restricted to the fields the pipeline reads. `Values` is a Go
`map[string]string`, modelled as an association list whose keys are
distinct. -/
structure ImportConfig where
  Namespace : String
  ExcludeNamespaces : List String
  Values : List (String × String)
  Target : String
  NewStoragePath : String
  Force : Bool
deriving DecidableEq

/-- The transfer configuration (`config.TransferConfig`), restricted to the
fields the pipeline reads. -/
structure TransferConfig where
  NewStoragePath : String
  Force : Bool
deriving DecidableEq

/-- Result of one call to the install capability
(`lmhelm.Client.Install`), with "release already exists" classifiable as in
`lmhelm.ErrorReleaseExists`. -/
inductive InstallResult where
  | ok
  | alreadyExists
  | otherErr (msg : String)
deriving DecidableEq

/-- Observable per-release effects of the deploy loops: console prints,
error logs, dry-run renders, and install submissions. -/
inductive DeployEvent where
  | printDeploying (name : String)
  | logUpdateError (name : String)
  | rendered (name : String)
  | installAttempt (name : String)
  | printSkip (name : String)
  | printError (name : String)
  | printSuccess (name : String)
  | logInstallError (name : String)
deriving DecidableEq

/-- `importt.Import.filterReleasesByNamespace` helper: retain only releases
in the configured namespace. -/
def Importt.includeReleasesByNamespace (cfg : ImportConfig) (releases : List Release) :
    List Release :=
  releases.filter (fun r => r.Namespace == cfg.Namespace)

/-- `importt.Import.filterReleasesByNamespace` helper: drop releases whose
namespace occurs in the exclude list. -/
def Importt.excludeReleasesByNamespace (cfg : ImportConfig) (releases : List Release) :
    List Release :=
  releases.filter (fun r => !(cfg.ExcludeNamespaces.contains r.Namespace))

/-- `importt.Import.filterReleasesByNamespace`: a configured namespace
selects inclusion filtering; otherwise a non-empty exclude list selects
exclusion filtering; otherwise the batch passes through unchanged. -/
def Importt.filterReleasesByNamespace (cfg : ImportConfig) (releases : List Release) :
    List Release :=
  if cfg.Namespace != "" then
    Importt.includeReleasesByNamespace cfg releases
  else if cfg.ExcludeNamespaces.length > 0 then
    Importt.excludeReleasesByNamespace cfg releases
  else
    releases

/-- The inner loop of `importt.Import.updateValues`: apply every configured
key/value override to one release, threading the rewritten release and
stopping at the first failure. -/
def applyValues : List (String × String) → Release → Except String Release
  | [], r => Except.ok r
  | kv :: rest, r =>
    match UpdateValue r kv.1 kv.2 with
    | Except.error e => Except.error e
    | Except.ok r2 => applyValues rest r2

/-- `importt.Import.updateValues`: rewrite every configured key in every
release of the batch; the first failing rewrite aborts the whole batch with
the underlying error. -/
def Importt.updateValues (vals : List (String × String)) :
    List Release → Except String (List Release)
  | [] => Except.ok []
  | r :: rest =>
    match applyValues vals r with
    | Except.error e => Except.error e
    | Except.ok r2 =>
      match Importt.updateValues vals rest with
      | Except.error e => Except.error e
      | Except.ok rs => Except.ok (r2 :: rs)

/-- `importt.Import.updateManagerRelease`: when a new storage path is
configured, a state record exists, and this release is the manager release,
rewrite its storage-path value; otherwise pass it through unmodified. -/
def Importt.updateManagerRelease (cfg : ImportConfig) (info : Option Info) (r : Release) :
    Except String Release :=
  match info with
  | none => Except.ok r
  | some i =>
    if cfg.NewStoragePath = "" || r.Name ≠ i.ReleaseName then
      Except.ok r
    else
      UpdateValue r ValueStoragePath cfg.NewStoragePath

/-- The target-namespace override performed at the top of
`importt.Import.deployReleases`: reassign the namespace when a target is
configured. -/
def Importt.targetOverride (cfg : ImportConfig) (r : Release) : Release :=
  if cfg.Target != "" then { r with Namespace := cfg.Target } else r

/-- `importt.Import.deployRelease`: submit the release to the install
capability; an "already exists" failure is printed as a skip and dropped,
any other failure is printed and returned, success is printed. -/
def Importt.deployRelease (install : Release → InstallResult) (r : Release) :
    Option String × List DeployEvent :=
  match install r with
  | InstallResult.ok =>
    (none, [DeployEvent.installAttempt r.Name, DeployEvent.printSuccess r.Name])
  | InstallResult.alreadyExists =>
    (none, [DeployEvent.installAttempt r.Name, DeployEvent.printSkip r.Name])
  | InstallResult.otherErr m =>
    (some m, [DeployEvent.installAttempt r.Name, DeployEvent.printError r.Name])

/-- One iteration of the `importt.Import.deployReleases` loop: print, apply
the target-namespace override, rewrite the manager release (skipping the
release on failure), then either render it (dry run) or dispatch the
install (whose error the loop discards). -/
def Importt.deployOne (cfg : ImportConfig) (dryRun : Bool) (info : Option Info)
    (install : Release → InstallResult) (r : Release) : List DeployEvent :=
  let r1 := Importt.targetOverride cfg r
  DeployEvent.printDeploying r.Name ::
    (match Importt.updateManagerRelease cfg info r1 with
     | Except.error _ => [DeployEvent.logUpdateError r1.Name]
     | Except.ok r2 =>
       if dryRun then
         [DeployEvent.rendered r2.Name]
       else
         (Importt.deployRelease install r2).2)

/-- `importt.Import.deployReleases`: iterate the batch, dispatch each
release, wait for every dispatched install, and return nil regardless of
individual install outcomes (per-release errors are only printed). -/
def Importt.deployReleases (cfg : ImportConfig) (dryRun : Bool) (info : Option Info)
    (install : Release → InstallResult) (releases : List Release) :
    Option String × List DeployEvent :=
  (none, releases.foldl (fun evs r => evs ++ Importt.deployOne cfg dryRun info install r) [])

/-- `transfer.Transfer.updateManagerRelease`: identical shape to the import
variant, driven by the transfer configuration. -/
def Transfer.updateManagerRelease (cfg : TransferConfig) (info : Option Info) (r : Release) :
    Except String Release :=
  match info with
  | none => Except.ok r
  | some i =>
    if cfg.NewStoragePath = "" || r.Name ≠ i.ReleaseName then
      Except.ok r
    else
      UpdateValue r ValueStoragePath cfg.NewStoragePath

/-- `transfer.Transfer.deployRelease`: submit the release to the install
capability and log any error (no classification, nothing returned). -/
def Transfer.deployRelease (install : Release → InstallResult) (r : Release) :
    List DeployEvent :=
  match install r with
  | InstallResult.ok => [DeployEvent.installAttempt r.Name]
  | InstallResult.alreadyExists =>
    [DeployEvent.installAttempt r.Name, DeployEvent.logInstallError r.Name]
  | InstallResult.otherErr _ =>
    [DeployEvent.installAttempt r.Name, DeployEvent.logInstallError r.Name]

/-- One iteration of the `transfer.Transfer.deployReleases` loop. -/
def Transfer.deployOne (cfg : TransferConfig) (dryRun : Bool) (info : Option Info)
    (install : Release → InstallResult) (r : Release) : List DeployEvent :=
  DeployEvent.printDeploying r.Name ::
    (match Transfer.updateManagerRelease cfg info r with
     | Except.error _ => [DeployEvent.logUpdateError r.Name]
     | Except.ok r2 =>
       if dryRun then
         [DeployEvent.rendered r2.Name]
       else
         Transfer.deployRelease install r2)

/-- `transfer.Transfer.deployReleases`: iterate the batch, dispatch each
release, wait for every dispatched install, and return nil. -/
def Transfer.deployReleases (cfg : TransferConfig) (dryRun : Bool) (info : Option Info)
    (install : Release → InstallResult) (releases : List Release) :
    Option String × List DeployEvent :=
  (none, releases.foldl (fun evs r => evs ++ Transfer.deployOne cfg dryRun info install r) [])

/-- Observable side effects of the sanity check: warning logs and console
prints (no backend operation is ever performed by the check). -/
inductive CheckEffect where
  | warnLog (msg : String)
  | printOut (msg : String)
deriving DecidableEq

/-- Outcome of the sanity check: `err = none` means the check succeeded and
the operation may proceed. -/
structure CheckResult where
  err : Option String
  effects : List CheckEffect
deriving DecidableEq

/-- The advisory text shared by both conflict resolvers. -/
def conflictWarn : String :=
  "This can lead to unexpected results and is probably a mistake. If you really wish to continue, use --force"

/-- The conflict message built by `importt.Import.resolveStateConflict`,
naming the existing state file and its storage path. -/
def Importt.conflictMsg (stateName storagePath : String) : String :=
  "Existing state " ++ stateName ++ " exists in path " ++ storagePath ++
    " but --new-path was not specified."

/-- `importt.Import.resolveStateConflict`: force wins with a warning,
otherwise dry run prints the conflict and proceeds, otherwise the check
fails with the conflict message. `stateName` is `t.State.Name()` and
`storagePath` is `t.Config.Backend.StoragePath`. -/
def Importt.resolveStateConflict (stateName storagePath : String) (force dryRun : Bool) :
    CheckResult :=
  let msg := Importt.conflictMsg stateName storagePath
  if force then
    { err := none,
      effects := [CheckEffect.warnLog (msg ++ "\n--force specified. Proceeding...")] }
  else if dryRun then
    { err := none, effects := [CheckEffect.printOut (msg ++ "\n" ++ conflictWarn)] }
  else
    { err := some (msg ++ "\n" ++ conflictWarn), effects := [] }

/-- `importt.Import.sanityCheck`: the four-row decision table over state
presence (`t.State.Info != nil`, here `info.isSome`) and whether a new
storage path was requested, with the source's unreachable default row
preserved. -/
def Importt.sanityCheck (info : Option Info) (NewStoragePath : String)
    (force dryRun : Bool) (stateName storagePath : String) : CheckResult :=
  if info.isSome && NewStoragePath == "" then
    Importt.resolveStateConflict stateName storagePath force dryRun
  else if info.isNone && NewStoragePath != "" then
    { err := none,
      effects := [CheckEffect.warnLog "--path specified but no remote state found."] }
  else if info.isNone && NewStoragePath == "" then
    { err := none, effects := [] }
  else if info.isSome && NewStoragePath != "" then
    { err := none, effects := [] }
  else
    { err := some "Unknown error performing state sanity checks. Failing", effects := [] }

/-- The conflict message built by `transfer.Transfer.resolveStateConflict`,
naming the existing state's remote path (`t.State.Path()`). -/
def Transfer.conflictMsg (statePath : String) : String :=
  "Existing state exists at " ++ statePath ++ " but --new-path was not specified."

/-- `transfer.Transfer.resolveStateConflict`: same resolution ladder as
the variant above, with the transfer message. -/
def Transfer.resolveStateConflict (statePath : String) (force dryRun : Bool) :
    CheckResult :=
  let msg := Transfer.conflictMsg statePath
  if force then
    { err := none,
      effects := [CheckEffect.warnLog (msg ++ "\n--force specified. Proceeding...")] }
  else if dryRun then
    { err := none, effects := [CheckEffect.printOut (msg ++ "\n" ++ conflictWarn)] }
  else
    { err := some (msg ++ "\n" ++ conflictWarn), effects := [] }

/-- The transfer run's state handle (`t.State`, a `*state.State`): `Info`
is the record loaded by `t.State.Read()` (`nil` when no remote state record
exists) and `Path` is the value of `t.State.Path()`. `Transfer.Run`
dereferences the handle (`t.State.Releases`, `t.State.Read()`) before the
sanity check, so every run that reaches the check has a live handle. -/
structure TransferState where
  Info : Option Info
  Path : String
deriving DecidableEq

/-- `transfer.Transfer.sanityCheck`: the same decision table, except that
the source tests `t.State != nil` — the nil-ness of the whole handle,
modelled by `state.isSome` — and never consults the loaded record
`t.State.Info`, unlike the import variant. -/
def Transfer.sanityCheck (state : Option TransferState) (NewStoragePath : String)
    (force dryRun : Bool) : CheckResult :=
  if state.isSome && NewStoragePath == "" then
    Transfer.resolveStateConflict ((state.getD (TransferState.mk none "")).Path) force dryRun
  else if state.isNone && NewStoragePath != "" then
    { err := none,
      effects := [CheckEffect.warnLog "--path specified but no remote state found."] }
  else if state.isNone && NewStoragePath == "" then
    { err := none, effects := [] }
  else if state.isSome && NewStoragePath != "" then
    { err := none, effects := [] }
  else
    { err := some "Unknown error performing state sanity checks. Failing", effects := [] }

/-- The regular expression `^.+<ReleaseExtension>$` of
`state.State.StoredReleaseNames`: a non-empty prefix followed by the
release extension (entry names are file names, so the newline exclusion of
`.` is immaterial). The suffix test is carried out on the character
sequences. -/
def matchesReleasePattern (n : String) : Bool :=
  decide (ReleaseExtension.length < n.length) && ReleaseExtension.data.isSuffixOf n.data

/-- `state.State.StoredReleaseNames`: list the storage path and retain only
entries matching the release-file pattern; a listing failure propagates. -/
def State.StoredReleaseNames (listResult : Except String (List String)) :
    Except String (List String) :=
  match listResult with
  | Except.error e => Except.error e
  | Except.ok names => Except.ok (names.filter matchesReleasePattern)

/-- The race-free intent of `state.State.StoredReleases`: decode every
retained entry via the read capability (`state.State.ReadRelease`); an
entry whose read or decode fails is logged and dropped, never failing the
whole retrieval. This lossless sequential collection is what the spec
asserts; the source instead fans the reads out to one goroutine per entry,
each appending to the shared result slice without synchronisation, a data
race modelled explicitly by `raceStep`/`runSchedule` below, under which
successfully decoded entries can be lost. -/
def State.StoredReleases (listResult : Except String (List String))
    (readRelease : String → Except String Release) : Except String (List Release) :=
  match State.StoredReleaseNames listResult with
  | Except.error e => Except.error e
  | Except.ok filenames =>
    Except.ok (filenames.filterMap (fun f => (readRelease f).toOption))

/-- A string occurs somewhere inside another. -/
def containsSub (s sub : String) : Prop :=
  ∃ a b, s = a ++ sub ++ b

/-- The shared-memory events of the source's unsynchronised
`*ret = append(*ret, r)` in the `StoredReleases` goroutines: goroutine `i`
first reads a snapshot of the shared slice, then stores that snapshot
extended with its decoded release. An interleaving of these events is a
schedule. -/
inductive AppendEvent where
  | readSlice (i : Nat)
  | writeSlice (i : Nat)
deriving DecidableEq

/-- The snapshot goroutine `i` took of the shared slice, if it has read
yet (latest read wins). -/
def getSnap : List (Nat × List Release) → Nat → Option (List Release)
  | [], _ => none
  | p :: rest, i => if p.1 = i then some p.2 else getSnap rest i

/-- Shared state of the concurrent append loop: the shared result slice
and each goroutine's private snapshot of it. -/
structure RaceState where
  ret : List Release
  snap : List (Nat × List Release)
deriving DecidableEq

/-- One shared-memory step of the concurrent append loop: a read snapshots
the shared slice; a write stores the goroutine's snapshot extended with its
release `rel i` back to the shared slice (a write before its read is a
no-op and occurs in no valid schedule). -/
def raceStep (rel : Nat → Release) (st : RaceState) (e : AppendEvent) : RaceState :=
  match e with
  | AppendEvent.readSlice i => { st with snap := (i, st.ret) :: st.snap }
  | AppendEvent.writeSlice i =>
    match getSnap st.snap i with
    | some s => { st with ret := s ++ [rel i] }
    | none => st

/-- Run a schedule of shared-memory events from the empty shared slice. -/
def runSchedule (rel : Nat → Release) (events : List AppendEvent) : RaceState :=
  events.foldl (raceStep rel) (RaceState.mk [] [])

/-- A concrete decodable stored release. -/
def relA : Release := Release.mk "a" "d" 1 none

/-- A second concrete decodable stored release. -/
def relB : Release := Release.mk "b" "d" 2 none

/-- A read capability under which both listed release files decode
successfully. -/
def readAB : String → Except String Release := fun f =>
  if f = "a.release" then Except.ok relA
  else if f = "b.release" then Except.ok relB
  else Except.error "unexpected entry"

/-- The decoded releases of the two goroutines spawned for the listing
`["a.release", "b.release"]`. -/
def relAB : Nat → Release := fun i => if i = 0 then relA else relB

/-- C10: with an empty configured manager release name, `State.Update`
performs no backend operation at all and returns success with the remote
record untouched. -/
theorem c10_update_noop_without_release_name
    (s : State) (releases : List Release) (h : s.ReleaseName = "") :
    s.Update releases = (s, []) := by
  simp [State.Update, h]

/-- Witness for C10 at a concrete state and batch. -/
theorem c10_update_noop_witness :
    (State.mk true "" (some (Info.mk "f" "m" 2))).ReleaseName = "" ∧
      (State.mk true "" (some (Info.mk "f" "m" 2))).Update [Release.mk "a" "ns" 1 none]
        = (State.mk true "" (some (Info.mk "f" "m" 2)), []) :=
  ⟨rfl, c10_update_noop_without_release_name _ _ rfl⟩

/-- C3: the first `updateState` of a run always writes; an immediate second
call with the unchanged candidate performs no further write (one write in
total); and in general a non-first call writes exactly when the read-back
fails or the stored record differs from the candidate. -/
theorem c3_update_state_idempotent (s0 : State) (i : Info) (h : s0.init = false) :
    writes (s0.updateState i).2 = [i] ∧
      writes ((s0.updateState i).1.updateState i).2 = [] ∧
      (∀ s : State, s.init = true →
        (writes (s.updateState i).2 ≠ [] ↔ s.stored = none ∨ s.stored ≠ some i)) := by
  refine ⟨?_, ?_, ?_⟩
  · simp [State.updateState, h, writes]
  · simp [State.updateState, h, writes]
  · intro s hs
    cases hst : s.stored with
    | none => simp [State.updateState, hs, hst, writes]
    | some old =>
      by_cases hio : i = old
      · simp [State.updateState, hs, hst, writes, hio]
      · simp [State.updateState, hs, hst, writes, hio, Ne.symm hio]

/-- Witness for C3 at a concrete fresh state and candidate. -/
theorem c3_update_state_witness :
    (State.mk false "mgr" none).init = false ∧
      writes ((State.mk false "mgr" none).updateState (Info.mk "f" "mgr" 1)).2
        = [Info.mk "f" "mgr" 1] ∧
      writes (((State.mk false "mgr" none).updateState (Info.mk "f" "mgr" 1)).1.updateState
        (Info.mk "f" "mgr" 1)).2 = [] :=
  ⟨rfl, (c3_update_state_idempotent (State.mk false "mgr" none) (Info.mk "f" "mgr" 1) rfl).1,
    (c3_update_state_idempotent (State.mk false "mgr" none) (Info.mk "f" "mgr" 1) rfl).2.1⟩

/-- C1 (code bug): the transfer sanity check tests the nil-ness of the
state handle (`t.State != nil`), not of the loaded record, and the handle
is live in every run that reaches the check; so a transfer run with no
state record and no new storage path still enters the conflict branch and
fails when force and dry-run are unset, where the claim requires success.
The import check, which tests the record itself (`t.State.Info != nil`),
succeeds on that row as the claim states, and force still rescues the
transfer run, confirming the failure is the default path. -/
theorem c1_transfer_nil_state_test (statePath stateName storagePath : String)
    (force dryRun : Bool) :
    (Transfer.sanityCheck (some (TransferState.mk none statePath)) "" false false).err
        = some (Transfer.conflictMsg statePath ++ "\n" ++ conflictWarn) ∧
      (Importt.sanityCheck none "" force dryRun stateName storagePath).err = none ∧
      (Transfer.sanityCheck (some (TransferState.mk none statePath)) "" true dryRun).err
        = none := by
  refine ⟨?_, ?_, ?_⟩
  · simp [Transfer.sanityCheck, Transfer.resolveStateConflict]
  · simp [Importt.sanityCheck]
  · simp [Transfer.sanityCheck, Transfer.resolveStateConflict]

/-- C2: on the conflicting row (state record present, no new path), force
yields success with a warning recorded; dry run without force yields
success after printing the conflict message; with both unset the check
fails with an error whose message names the existing state's storage
location, for the import and transfer resolvers alike. -/
theorem c2_conflict_row_resolution
    (i : Info) (dryRun : Bool) (stateName storagePath statePath : String) :
    (Importt.sanityCheck (some i) "" true dryRun stateName storagePath
        = { err := none,
            effects := [CheckEffect.warnLog (Importt.conflictMsg stateName storagePath
              ++ "\n--force specified. Proceeding...")] }) ∧
      (Importt.sanityCheck (some i) "" false true stateName storagePath
        = { err := none,
            effects := [CheckEffect.printOut (Importt.conflictMsg stateName storagePath
              ++ "\n" ++ conflictWarn)] }) ∧
      (Importt.sanityCheck (some i) "" false false stateName storagePath
        = { err := some (Importt.conflictMsg stateName storagePath ++ "\n" ++ conflictWarn),
            effects := [] }) ∧
      containsSub (Importt.conflictMsg stateName storagePath ++ "\n" ++ conflictWarn)
        storagePath ∧
      (Transfer.sanityCheck (some (TransferState.mk (some i) statePath)) "" true dryRun
        = { err := none,
            effects := [CheckEffect.warnLog (Transfer.conflictMsg statePath
              ++ "\n--force specified. Proceeding...")] }) ∧
      (Transfer.sanityCheck (some (TransferState.mk (some i) statePath)) "" false true
        = { err := none,
            effects := [CheckEffect.printOut (Transfer.conflictMsg statePath
              ++ "\n" ++ conflictWarn)] }) ∧
      (Transfer.sanityCheck (some (TransferState.mk (some i) statePath)) "" false false
        = { err := some (Transfer.conflictMsg statePath ++ "\n" ++ conflictWarn),
            effects := [] }) ∧
      containsSub (Transfer.conflictMsg statePath ++ "\n" ++ conflictWarn) statePath := by
  refine ⟨?_, ?_, ?_, ?_, ?_, ?_, ?_, ?_⟩
  · simp [Importt.sanityCheck, Importt.resolveStateConflict]
  · simp [Importt.sanityCheck, Importt.resolveStateConflict]
  · simp [Importt.sanityCheck, Importt.resolveStateConflict]
  · exact ⟨"Existing state " ++ stateName ++ " exists in path ",
      " but --new-path was not specified." ++ "\n" ++ conflictWarn,
      by simp [Importt.conflictMsg, String.append_assoc]⟩
  · simp [Transfer.sanityCheck, Transfer.resolveStateConflict]
  · simp [Transfer.sanityCheck, Transfer.resolveStateConflict]
  · simp [Transfer.sanityCheck, Transfer.resolveStateConflict]
  · exact ⟨"Existing state exists at ",
      " but --new-path was not specified." ++ "\n" ++ conflictWarn,
      by simp [Transfer.conflictMsg, String.append_assoc]⟩

/-- Folding a per-item effect emitter over a batch accumulates exactly the
concatenation of the per-item effect lists. -/
theorem foldl_append_effects {α β : Type} (f : α → List β) (xs : List α) (acc : List β) :
    xs.foldl (fun evs x => evs ++ f x) acc = acc ++ (xs.map f).flatten := by
  induction xs generalizing acc with
  | nil => simp
  | cons x xs ih => simp [ih]

/-- The trace of the import deploy loop is the concatenation of the
per-release traces. -/
theorem importDeployReleasesTrace (cfg : ImportConfig) (dryRun : Bool)
    (info : Option Info) (install : Release → InstallResult) (releases : List Release) :
    (Importt.deployReleases cfg dryRun info install releases).2
      = (releases.map (Importt.deployOne cfg dryRun info install)).flatten := by
  simp [Importt.deployReleases, foldl_append_effects]

/-- The trace of the transfer deploy loop is the concatenation of the
per-release traces. -/
theorem transferDeployReleasesTrace (cfg : TransferConfig) (dryRun : Bool)
    (info : Option Info) (install : Release → InstallResult) (releases : List Release) :
    (Transfer.deployReleases cfg dryRun info install releases).2
      = (releases.map (Transfer.deployOne cfg dryRun info install)).flatten := by
  simp [Transfer.deployReleases, foldl_append_effects]

/-- Under dry run, one iteration of the import deploy loop prints and then
either logs the rewrite failure or renders the rewritten release. -/
theorem importDeployOneDryRun (cfg : ImportConfig) (info : Option Info)
    (install : Release → InstallResult) (r : Release) :
    Importt.deployOne cfg true info install r
      = DeployEvent.printDeploying r.Name ::
          (match Importt.updateManagerRelease cfg info (Importt.targetOverride cfg r) with
           | Except.error _ => [DeployEvent.logUpdateError (Importt.targetOverride cfg r).Name]
           | Except.ok r2 => [DeployEvent.rendered r2.Name]) := rfl

/-- Under dry run, one iteration of the transfer deploy loop prints and
then either logs the rewrite failure or renders the rewritten release. -/
theorem transferDeployOneDryRun (cfg : TransferConfig) (info : Option Info)
    (install : Release → InstallResult) (r : Release) :
    Transfer.deployOne cfg true info install r
      = DeployEvent.printDeploying r.Name ::
          (match Transfer.updateManagerRelease cfg info r with
           | Except.error _ => [DeployEvent.logUpdateError r.Name]
           | Except.ok r2 => [DeployEvent.rendered r2.Name]) := rfl

/-- C4: the import deploy loop reports batch success whatever the install
capability does, its trace is the independent concatenation of every
release's own trace (so one release's failure never removes a sibling's
processing), and an install failure classified as "release already exists"
yields a skip print and no error. -/
theorem c4_install_failure_never_aborts
    (cfg : ImportConfig) (info : Option Info) (install : Release → InstallResult)
    (releases : List Release) :
    (Importt.deployReleases cfg false info install releases).1 = none ∧
      (Importt.deployReleases cfg false info install releases).2
        = (releases.map (Importt.deployOne cfg false info install)).flatten ∧
      (∀ r : Release, install r = InstallResult.alreadyExists →
        Importt.deployRelease install r
          = (none, [DeployEvent.installAttempt r.Name, DeployEvent.printSkip r.Name])) := by
  refine ⟨rfl, importDeployReleasesTrace cfg false info install releases, ?_⟩
  intro r hr
  simp [Importt.deployRelease, hr]

/-- Witness for C4: a batch whose single install reports "already exists"
is a skip, not an error. -/
theorem c4_witness :
    (fun _ : Release => InstallResult.alreadyExists) (Release.mk "x" "d" 1 none)
        = InstallResult.alreadyExists ∧
      Importt.deployRelease (fun _ => InstallResult.alreadyExists) (Release.mk "x" "d" 1 none)
        = (none, [DeployEvent.installAttempt "x", DeployEvent.printSkip "x"]) :=
  ⟨rfl,
    (c4_install_failure_never_aborts (ImportConfig.mk "" [] [] "" "" false) none
      (fun _ => InstallResult.alreadyExists) []).2.2 (Release.mk "x" "d" 1 none) rfl⟩

/-- C9: with the dry-run flag set, neither deploy loop ever submits any
release to the install capability, and every release whose manager rewrite
succeeds is rendered and printed instead. -/
theorem c9_dry_run_never_installs
    (cfg : ImportConfig) (tcfg : TransferConfig) (info : Option Info)
    (install : Release → InstallResult) (releases : List Release) (n : String) :
    DeployEvent.installAttempt n ∉ (Importt.deployReleases cfg true info install releases).2 ∧
      (∀ r ∈ releases, ∀ r2,
        Importt.updateManagerRelease cfg info (Importt.targetOverride cfg r) = Except.ok r2 →
        DeployEvent.rendered r2.Name
          ∈ (Importt.deployReleases cfg true info install releases).2) ∧
      DeployEvent.installAttempt n ∉ (Transfer.deployReleases tcfg true info install releases).2 ∧
      (∀ r ∈ releases, ∀ r2, Transfer.updateManagerRelease tcfg info r = Except.ok r2 →
        DeployEvent.rendered r2.Name
          ∈ (Transfer.deployReleases tcfg true info install releases).2) := by
  refine ⟨?_, ?_, ?_, ?_⟩
  · intro hmem
    rw [importDeployReleasesTrace, List.mem_flatten] at hmem
    obtain ⟨l, hl, hn⟩ := hmem
    rw [List.mem_map] at hl
    obtain ⟨r, hr, rfl⟩ := hl
    rw [importDeployOneDryRun] at hn
    cases h2 : Importt.updateManagerRelease cfg info (Importt.targetOverride cfg r) with
    | error e => rw [h2] at hn; simp at hn
    | ok r2 => rw [h2] at hn; simp at hn
  · intro r hr r2 h2
    rw [importDeployReleasesTrace, List.mem_flatten]
    refine ⟨Importt.deployOne cfg true info install r, List.mem_map_of_mem _ hr, ?_⟩
    rw [importDeployOneDryRun, h2]
    simp
  · intro hmem
    rw [transferDeployReleasesTrace, List.mem_flatten] at hmem
    obtain ⟨l, hl, hn⟩ := hmem
    rw [List.mem_map] at hl
    obtain ⟨r, hr, rfl⟩ := hl
    rw [transferDeployOneDryRun] at hn
    cases h2 : Transfer.updateManagerRelease tcfg info r with
    | error e => rw [h2] at hn; simp at hn
    | ok r2 => rw [h2] at hn; simp at hn
  · intro r hr r2 h2
    rw [transferDeployReleasesTrace, List.mem_flatten]
    refine ⟨Transfer.deployOne tcfg true info install r, List.mem_map_of_mem _ hr, ?_⟩
    rw [transferDeployOneDryRun, h2]
    simp

/-- Witness for C9: a concrete dry-run batch renders its release and never
reaches the installer. -/
theorem c9_witness :
    DeployEvent.installAttempt "a"
        ∉ (Importt.deployReleases (ImportConfig.mk "" [] [] "" "" false) true none
            (fun _ => InstallResult.ok) [Release.mk "a" "d" 1 (some [])]).2 ∧
      DeployEvent.rendered "a"
        ∈ (Importt.deployReleases (ImportConfig.mk "" [] [] "" "" false) true none
            (fun _ => InstallResult.ok) [Release.mk "a" "d" 1 (some [])]).2 :=
  ⟨(c9_dry_run_never_installs (ImportConfig.mk "" [] [] "" "" false)
      (TransferConfig.mk "" false) none (fun _ => InstallResult.ok)
      [Release.mk "a" "d" 1 (some [])] "a").1,
    (c9_dry_run_never_installs (ImportConfig.mk "" [] [] "" "" false)
      (TransferConfig.mk "" false) none (fun _ => InstallResult.ok)
      [Release.mk "a" "d" 1 (some [])] "a").2.1 (Release.mk "a" "d" 1 (some []))
      (by simp) (Release.mk "a" "d" 1 (some [])) rfl⟩

/-- C5: with a configured manager release name, `State.Update` hands the
first release named like the manager to `updateState` as a record built
from its filename, the configured name, and its version (so the write is
subject to the change-detection rule); when no release matches, it deletes
the remote record; and some release matching by name guarantees such a
first match exists. -/
theorem c5_update_writes_or_deletes
    (s : State) (releases : List Release) (h : s.ReleaseName ≠ "") :
    (∀ r : Release, releases.find? (fun r => s.isManagerRelease r.Name) = some r →
        s.Update releases = s.updateState (Info.mk (Filename r) s.ReleaseName r.Version)) ∧
      ((∀ r ∈ releases, r.Name ≠ s.ReleaseName) →
        s.Update releases = s.delete ∧ (s.Update releases).1.stored = none ∧
          (s.Update releases).2 = [BackendOp.deleteRecord]) ∧
      ((∃ r ∈ releases, r.Name = s.ReleaseName) →
        ∃ r : Release, releases.find? (fun r => s.isManagerRelease r.Name) = some r ∧
          r.Name = s.ReleaseName) := by
  refine ⟨?_, ?_, ?_⟩
  · intro r hfind
    simp [State.Update, h, hfind]
  · intro hno
    have hfind : releases.find? (fun r => s.isManagerRelease r.Name) = none := by
      rw [List.find?_eq_none]
      intro r hr
      simp [State.isManagerRelease, h]
      intro hname
      exact absurd hname (hno r hr)
    refine ⟨by simp [State.Update, h, hfind], ?_, ?_⟩ <;>
      simp [State.Update, h, hfind, State.delete]
  · intro hex
    obtain ⟨r, hr, hname⟩ := hex
    have hsome : (releases.find? (fun r => s.isManagerRelease r.Name)).isSome := by
      rw [List.find?_isSome]
      exact ⟨r, hr, by simp [State.isManagerRelease, h, hname]⟩
    obtain ⟨r2, hfind⟩ := Option.isSome_iff_exists.mp hsome
    have hp := List.find?_some hfind
    simp [State.isManagerRelease] at hp
    exact ⟨r2, hfind, hp.2⟩

/-- Witness for C5: a batch containing the manager release routes to
`updateState` with the record built from it. -/
theorem c5_witness :
    (State.mk false "mgr" none).ReleaseName ≠ "" ∧
      (State.mk false "mgr" none).Update [Release.mk "mgr" "d" 3 none]
        = (State.mk false "mgr" none).updateState
            (Info.mk (Filename (Release.mk "mgr" "d" 3 none)) "mgr" 3) :=
  ⟨by decide,
    (c5_update_writes_or_deletes (State.mk false "mgr" none) [Release.mk "mgr" "d" 3 none]
      (by decide)).1 (Release.mk "mgr" "d" 3 none) (by decide)⟩

/-- C7: the namespace filter retains exactly the releases of the configured
allow namespace when one is set; otherwise drops exactly those in a
non-empty exclude list; otherwise passes the batch through; and a release
matching both configured filters is retained (allow precedence). -/
theorem c7_namespace_filter
    (cfg : ImportConfig) (releases : List Release) (r : Release) :
    (cfg.Namespace ≠ "" →
        (r ∈ Importt.filterReleasesByNamespace cfg releases ↔
          r ∈ releases ∧ r.Namespace = cfg.Namespace)) ∧
      (cfg.Namespace = "" → cfg.ExcludeNamespaces ≠ [] →
        (r ∈ Importt.filterReleasesByNamespace cfg releases ↔
          r ∈ releases ∧ r.Namespace ∉ cfg.ExcludeNamespaces)) ∧
      (cfg.Namespace = "" → cfg.ExcludeNamespaces = [] →
        Importt.filterReleasesByNamespace cfg releases = releases) ∧
      (cfg.Namespace ≠ "" → r ∈ releases → r.Namespace = cfg.Namespace →
        r.Namespace ∈ cfg.ExcludeNamespaces →
        r ∈ Importt.filterReleasesByNamespace cfg releases) := by
  refine ⟨?_, ?_, ?_, ?_⟩
  · intro h
    simp [Importt.filterReleasesByNamespace, Importt.includeReleasesByNamespace, h,
      List.mem_filter]
  · intro h hex
    simp [Importt.filterReleasesByNamespace, Importt.excludeReleasesByNamespace, h,
      List.length_pos, hex, List.mem_filter]
  · intro h hex
    simp [Importt.filterReleasesByNamespace, h, hex]
  · intro h hr hns _
    simp [Importt.filterReleasesByNamespace, Importt.includeReleasesByNamespace, h,
      List.mem_filter]
    exact ⟨hr, hns⟩

/-- Witness for C7: a release whose namespace is both allowed and excluded
is retained by the filter. -/
theorem c7_witness :
    Release.mk "a" "default" 1 none
      ∈ Importt.filterReleasesByNamespace
          (ImportConfig.mk "default" ["default"] [] "" "" false)
          [Release.mk "a" "default" 1 none] :=
  (c7_namespace_filter (ImportConfig.mk "default" ["default"] [] "" "" false)
    [Release.mk "a" "default" 1 none] (Release.mk "a" "default" 1 none)).2.2.2
    (by decide) (by simp) rfl (by decide)

/-- The race-free model of `StoredReleases` on a successful backend listing
always succeeds whatever the per-entry reads do, and its result holds
exactly the releases successfully decoded from listed entries matching the
release-file suffix pattern; the well-known state-record name does not
match that pattern. This is the behaviour the spec asserts; the source's
unsynchronised concurrent append does not guarantee the "exactly". -/
theorem storedReleasesRaceFree_exact
    (names : List String) (readRelease : String → Except String Release) (r : Release) :
    (∃ rs, State.StoredReleases (Except.ok names) readRelease = Except.ok rs) ∧
      (∀ rs, State.StoredReleases (Except.ok names) readRelease = Except.ok rs →
        (r ∈ rs ↔ ∃ f ∈ names, matchesReleasePattern f = true ∧ readRelease f = Except.ok r)) ∧
      matchesReleasePattern ManagerStateFilename = false := by
  refine ⟨⟨_, rfl⟩, ?_, by decide⟩
  intro rs hrs
  simp only [State.StoredReleases, State.StoredReleaseNames, Except.ok.injEq] at hrs
  subst hrs
  rw [List.mem_filterMap]
  constructor
  · rintro ⟨f, hf, hread⟩
    rw [List.mem_filter] at hf
    refine ⟨f, hf.1, hf.2, ?_⟩
    cases he : readRelease f <;> rw [he] at hread <;> simp [Except.toOption] at hread
    rw [hread]
  · rintro ⟨f, hf, hpat, hread⟩
    refine ⟨f, List.mem_filter.mpr ⟨hf, hpat⟩, ?_⟩
    rw [hread]
    rfl

/-- Example for the race-free model: a listing holding one release file,
one foreign object, and the state record yields exactly the decodable
release. -/
theorem storedReleasesRaceFree_example :
    State.StoredReleases (Except.ok ["a.release", "junk", "rlsmgr.state"])
        (fun f => if f = "a.release" then Except.ok (Release.mk "a" "d" 1 none)
          else Except.error "e")
      = Except.ok [Release.mk "a" "d" 1 none] ∧
      (Release.mk "a" "d" 1 none ∈ [Release.mk "a" "d" 1 none] ↔
        ∃ f ∈ ["a.release", "junk", "rlsmgr.state"], matchesReleasePattern f = true ∧
          (fun f => if f = "a.release" then Except.ok (Release.mk "a" "d" 1 none)
            else Except.error "e") f = Except.ok (Release.mk "a" "d" 1 none)) :=
  ⟨by rfl,
    (storedReleasesRaceFree_exact ["a.release", "junk", "rlsmgr.state"]
      (fun f => if f = "a.release" then Except.ok (Release.mk "a" "d" 1 none)
        else Except.error "e") (Release.mk "a" "d" 1 none)).2.1
      [Release.mk "a" "d" 1 none] (by rfl)⟩

/-- C8 (code bug): the source's `StoredReleases` lets every per-entry
goroutine append to the shared result slice without synchronisation
(`*ret = append(*ret, r)`), so its result need not hold exactly the
successfully decoded matching entries. With the listing
`["a.release", "b.release"]`, where both entries decode successfully, the
race-free collection (and any schedule whose appends do not overlap)
returns both releases — what the claim asserts — while the legal
interleaving in which both goroutines snapshot the slice before either
writes back returns only the second, silently dropping a successfully
decoded release. -/
theorem c8_concurrent_append_drops_release :
    State.StoredReleases (Except.ok ["a.release", "b.release"]) readAB
        = Except.ok [relA, relB] ∧
      (runSchedule relAB [AppendEvent.readSlice 0, AppendEvent.writeSlice 0,
          AppendEvent.readSlice 1, AppendEvent.writeSlice 1]).ret = [relA, relB] ∧
      (runSchedule relAB [AppendEvent.readSlice 0, AppendEvent.readSlice 1,
          AppendEvent.writeSlice 0, AppendEvent.writeSlice 1]).ret = [relB] := by
  refine ⟨rfl, rfl, rfl⟩

/-- Setting a key then reading it back yields the written value. -/
theorem getValue_setValue_self (m : List (String × String)) (k v : String) :
    getValue (setValue m k v) k = some v := by
  induction m with
  | nil => simp [setValue, getValue]
  | cons kv rest ih =>
    by_cases h : kv.1 = k
    · simp [setValue, h, getValue]
    · simp [setValue, h, getValue, ih]

/-- Setting one key leaves every other key unchanged. -/
theorem getValue_setValue_ne (m : List (String × String)) (k k2 v : String)
    (h : k2 ≠ k) : getValue (setValue m k2 v) k = getValue m k := by
  induction m with
  | nil => simp [setValue, getValue, h]
  | cons kv rest ih =>
    by_cases h2 : kv.1 = k2
    · simp [setValue, h2, getValue, h]
    · simp [setValue, h2, getValue, ih]

/-- Folding a batch of overrides whose keys avoid `k` leaves `k`
unchanged. -/
theorem getValue_foldl_preserve (vals : List (String × String))
    (m : List (String × String)) (k : String) (hk : k ∉ vals.map Prod.fst) :
    getValue (vals.foldl (fun m kv => setValue m kv.1 kv.2) m) k = getValue m k := by
  induction vals generalizing m with
  | nil => rfl
  | cons kv rest ih =>
    simp only [List.map_cons, List.mem_cons, not_or] at hk
    simp only [List.foldl_cons]
    rw [ih _ hk.2]
    exact getValue_setValue_ne m k kv.1 kv.2 (fun h => hk.1 h.symm)

/-- After folding a batch of overrides with pairwise-distinct keys, every
override key reads back as its override value. -/
theorem getValue_foldl_setValue (vals : List (String × String))
    (m : List (String × String)) (k v : String) (hmem : (k, v) ∈ vals)
    (hnodup : (vals.map Prod.fst).Nodup) :
    getValue (vals.foldl (fun m kv => setValue m kv.1 kv.2) m) k = some v := by
  induction vals generalizing m with
  | nil => cases hmem
  | cons kv rest ih =>
    simp only [List.map_cons, List.nodup_cons] at hnodup
    simp only [List.foldl_cons]
    rcases List.mem_cons.mp hmem with heq | hmem2
    · subst heq
      rw [getValue_foldl_preserve rest _ k hnodup.1]
      exact getValue_setValue_self m k v
    · exact ih _ hmem2 hnodup.2

/-- On a release whose configuration parses, the override loop succeeds and
produces the release carrying the fold of all overrides over its map. -/
theorem applyValues_config (vals : List (String × String)) (r : Release)
    (m : List (String × String)) (h : r.Config = some m) :
    applyValues vals r
      = Except.ok { r with
          Config := some (vals.foldl (fun m kv => setValue m kv.1 kv.2) m) } := by
  induction vals generalizing r m with
  | nil =>
    have hr : { r with Config := some m } = r := by
      cases r
      simp_all
    simp only [applyValues, List.foldl_nil, hr]
  | cons kv rest ih =>
    simp only [applyValues, UpdateValue, h, List.foldl_cons]
    exact ih _ _ rfl

/-- A successful override pass leaves every configured key at its override
value (keys are distinct, as they come from a Go map). -/
theorem applyValues_ok_values (vals : List (String × String)) (r r2 : Release)
    (hnodup : (vals.map Prod.fst).Nodup) (h : applyValues vals r = Except.ok r2)
    (kv : String × String) (hkv : kv ∈ vals) : r2.valueOf kv.1 = some kv.2 := by
  cases hc : r.Config with
  | none =>
    cases vals with
    | nil => cases hkv
    | cons kv2 rest => simp [applyValues, UpdateValue, hc] at h
  | some m =>
    rw [applyValues_config vals r m hc] at h
    injection h with h
    subst h
    simp only [Release.valueOf, Option.bind_some]
    exact getValue_foldl_setValue vals m kv.1 kv.2 hkv hnodup

/-- C6: a successful run of the value-override stage returns one rewritten
release per input release — the pipeline propagates the rewritten copies,
each carrying every configured key at its override value — and a rewrite
failure on any release (all earlier ones having succeeded) makes the stage
return that underlying error, so no release of the batch proceeds. -/
theorem c6_value_overrides (vals : List (String × String)) (releases : List Release)
    (hnodup : (vals.map Prod.fst).Nodup) :
    (∀ rs, Importt.updateValues vals releases = Except.ok rs →
        rs.length = releases.length ∧
          (∀ p ∈ releases.zip rs, applyValues vals p.1 = Except.ok p.2) ∧
          (∀ r2 ∈ rs, ∀ kv ∈ vals, r2.valueOf kv.1 = some kv.2)) ∧
      (∀ (pre post : List Release) (r : Release) (e : String),
        releases = pre ++ r :: post →
        (∀ r2 ∈ pre, ∃ rr, applyValues vals r2 = Except.ok rr) →
        applyValues vals r = Except.error e →
        Importt.updateValues vals releases = Except.error e) := by
  constructor
  · induction releases with
    | nil =>
      intro rs hrs
      simp [Importt.updateValues] at hrs
      subst hrs
      simp
    | cons r rest ih =>
      intro rs hrs
      simp only [Importt.updateValues] at hrs
      cases ha : applyValues vals r with
      | error e => rw [ha] at hrs; cases hrs
      | ok r2 =>
        rw [ha] at hrs
        cases hu : Importt.updateValues vals rest with
        | error e => rw [hu] at hrs; cases hrs
        | ok rs2 =>
          rw [hu] at hrs
          injection hrs with hrs
          subst hrs
          obtain ⟨hlen, hzip, hvals⟩ := ih rs2 hu
          refine ⟨by simp [hlen], ?_, ?_⟩
          · intro p hp
            rcases List.mem_cons.mp (by simpa [List.zip] using hp) with heq | hmem
            · subst heq; exact ha
            · exact hzip p (by simpa [List.zip] using hmem)
          · intro r3 hr3 kv hkv
            rcases List.mem_cons.mp hr3 with heq | hmem
            · subst heq
              exact applyValues_ok_values vals r r3 hnodup ha kv hkv
            · exact hvals r3 hmem kv hkv
  · intro pre
    induction pre generalizing releases with
    | nil =>
      intro post r e hrel hpre ha
      subst hrel
      simp [Importt.updateValues, ha]
    | cons p pre2 ih =>
      intro post r e hrel hpre ha
      subst hrel
      obtain ⟨pp, hpp⟩ := hpre p (by simp)
      have hrest := ih (pre2 ++ r :: post) post r e rfl
        (fun r2 hr2 => hpre r2 (List.mem_cons.mpr (Or.inr hr2))) ha
      simp only [List.cons_append, Importt.updateValues, hpp, List.append_eq, hrest]

/-- Witness for C6: a single release whose configuration cannot be parsed
aborts the stage with the underlying error. -/
theorem c6_witness :
    ((([("k", "v")] : List (String × String)).map Prod.fst).Nodup ∧
      applyValues [("k", "v")] (Release.mk "r" "ns" 1 none)
        = Except.error "cannot parse values for release r") ∧
      Importt.updateValues [("k", "v")] [Release.mk "r" "ns" 1 none]
        = Except.error "cannot parse values for release r" :=
  ⟨⟨by simp, rfl⟩,
    (c6_value_overrides [("k", "v")] [Release.mk "r" "ns" 1 none] (by simp)).2
      [] [] (Release.mk "r" "ns" 1 none) "cannot parse values for release r" rfl
      (by simp) rfl⟩
